import Mathlib

/-!
Verification of the Maxxa Velada match-statistics application (src/app.py).

The embedding models, over a pure store `List Match`:
- the JSON submission route `post_match` (POST /api/matches),
- the HTML form submission route `page_new_match` (POST /matches/new),
- the aggregation queries `get_leaderboard` (GET /api/leaderboard) and
  `get_player_stats` (GET /api/players/<name>/stats),
- the paginated listing `list_matches` (GET /api/matches).

Modelling conventions:
- the database table is a `List Match` in insertion (rowid) order; fresh ids
  are assigned as `length + 1`, matching autoincrement on an append-only table;
- `created_at` timestamps are naturals supplied by the caller (the clock is
  external to the routes);
- Python string values arriving in a request are `Option String` (absent =
  `none`); JSON score values, whose runtime type matters, are a small `JValue`
  type; `str.strip()` and `str.upper()` are modelled on ASCII;
- SQL `LIMIT :n` follows the semantics of the default SQLite backend: a
  negative bound means no limit;
- the SQL `ROUND(..., 2)` / Python `round(..., 2)` presentation of win rates is
  floating-point display formatting; the embedding carries the exact rational
  `wins / total_games` instead (no claim concerns the rounded digits);
- rows produced by `GROUP BY` are enumerated in first-appearance order and
  then sorted with a stable insertion sort, mirroring the table-scan plus
  `ORDER BY` execution of the default backend.
-/

namespace MaxxaVelada

/-- Whitespace characters removed by Python `str.strip()` (ASCII range). -/
def isPyWhitespace (c : Char) : Bool :=
  c = ' ' || c = '\t' || c = '\n' || c = '\r' || c = '\x0b' || c = '\x0c'

/-- Python `s.strip()`: drop leading and trailing whitespace. -/
def pyStrip (s : String) : String :=
  String.mk (((s.data.dropWhile isPyWhitespace).reverse.dropWhile isPyWhitespace).reverse)

/-- Python `s.upper()` restricted to ASCII letters. -/
def pyUpper (s : String) : String :=
  String.mk (s.data.map Char.toUpper)

/-- Python `x or ""` applied to an optional string (`None` and `""` are falsy). -/
def orEmpty (o : Option String) : String := o.getD ""

/-- Python `x or None` applied to an optional string: coerce `""` to `None`. -/
def orNone (o : Option String) : Option String :=
  match o with
  | some "" => none
  | o => o

/-- JSON values that can show up in a score field of the request body. -/
inductive JValue where
  | jnull : JValue
  | jint (n : Int) : JValue
  | jstr (s : String) : JValue
  | jbool (b : Bool) : JValue
deriving DecidableEq, Repr

/-- Python truthiness of a `JValue` (for the `or 0` default). -/
def jTruthy : JValue → Bool
  | .jnull => false
  | .jint n => n ≠ 0
  | .jstr s => s ≠ ""
  | .jbool b => b

/-- Digit run accepted by Python `int(str)` after sign: at least one digit. -/
def digitsToNat : List Char → Option Nat
  | [] => none
  | cs =>
    if cs.all Char.isDigit then
      some (cs.foldl (fun acc c => 10 * acc + (c.toNat - '0'.toNat)) 0)
    else none

/-- Python `int(s)` on a string: strip whitespace, optional sign, digits.
(Underscore digit grouping is not modelled; no claim involves it.) -/
def pyIntOfString (s : String) : Option Int :=
  match (pyStrip s).data with
  | [] => none
  | c :: rest =>
    if c = '-' then (digitsToNat rest).map (fun n => -(n : Int))
    else if c = '+' then (digitsToNat rest).map (fun n => (n : Int))
    else (digitsToNat (c :: rest)).map (fun n => (n : Int))

/-- Python `int(v)` on a JSON value. `int(None)` raises, `int(bool)` widens. -/
def pyIntOfJValue : JValue → Option Int
  | .jnull => none
  | .jint n => some n
  | .jstr s => pyIntOfString s
  | .jbool b => some (if b then 1 else 0)

/-- Evaluation of `int(data.get("score_pK") or 0)` on the JSON route: an absent
or falsy value becomes `0`; otherwise `int(...)`, which may raise. -/
def getScore : Option JValue → Except String Int
  | none => .ok 0
  | some v =>
    if jTruthy v then
      match pyIntOfJValue v with
      | some n => .ok n
      | none => .error "invalid literal for int()"
    else .ok 0

/-- Evaluation of `int(request.form.get("score_pK") or 0)` on the form route:
form values are strings; absent or empty becomes `0`. -/
def getFormScore : Option String → Except String Int
  | none => .ok 0
  | some s =>
    if s = "" then .ok 0
    else
      match pyIntOfString s with
      | some n => .ok n
      | none => .error "invalid literal for int()"

/-- Stored match record: the `match` table row of src/app.py. -/
structure MatchRow where
  id : Nat
  created_at : Nat
  player1_name : String
  player2_name : String
  winner : String
  score_p1 : Int
  score_p2 : Int
  stage : Option String
  character_p1 : Option String
  character_p2 : Option String
  mode : Option String
deriving DecidableEq, Repr

/-- Body of a `POST /api/matches` request (absent keys are `none`). -/
structure PostMatchBody where
  player1_name : Option String := none
  player2_name : Option String := none
  winner : Option String := none
  score_p1 : Option JValue := none
  score_p2 : Option JValue := none
  stage : Option String := none
  character_p1 : Option String := none
  character_p2 : Option String := none
  mode : Option String := none
deriving DecidableEq, Repr

/-- Form fields of a `POST /matches/new` request (all values are strings). -/
structure NewMatchForm where
  player1_name : Option String := none
  player2_name : Option String := none
  winner : Option String := none
  score_p1 : Option String := none
  score_p2 : Option String := none
  stage : Option String := none
  character_p1 : Option String := none
  character_p2 : Option String := none
  mode : Option String := none
deriving DecidableEq, Repr

/-- Outcome of the JSON submission route: HTTP 201 with the created row,
HTTP 400 with an `{error: ...}` body, or an unhandled exception (HTTP 500). -/
inductive PostResult where
  | created (m : MatchRow) : PostResult
  | badRequest (e : String) : PostResult
  | serverError (e : String) : PostResult
deriving DecidableEq, Repr

/-- HTTP status of a `PostResult`. -/
def PostResult.status : PostResult → Nat
  | .created _ => 201
  | .badRequest _ => 400
  | .serverError _ => 500

/-- POST /api/matches (src/app.py `post_match`): trim names, reject empty
names and invalid winners with 400, parse scores with `int(... or 0)`, store
pass-through fields as given, append the new row and return it with 201. -/
def post_match (body : PostMatchBody) (t : Nat) (s : List MatchRow) :
    PostResult × List MatchRow :=
  let p1 := pyStrip (orEmpty body.player1_name)
  let p2 := pyStrip (orEmpty body.player2_name)
  if p1 = "" ∨ p2 = "" then
    (.badRequest "player1_name and player2_name required", s)
  else
    match body.winner with
    | some w =>
      if w = "p1" ∨ w = "p2" then
        match getScore body.score_p1, getScore body.score_p2 with
        | .ok a, .ok b =>
          let m : MatchRow :=
            { id := s.length + 1, created_at := t,
              player1_name := p1, player2_name := p2, winner := w,
              score_p1 := a, score_p2 := b,
              stage := body.stage, character_p1 := body.character_p1,
              character_p2 := body.character_p2, mode := body.mode }
          (.created m, s ++ [m])
        | .error e, _ => (.serverError e, s)
        | _, .error e => (.serverError e, s)
      else (.badRequest "winner must be 'p1' or 'p2'", s)
    | none => (.badRequest "winner must be 'p1' or 'p2'", s)

/-- Outcome of the HTML form submission route: redirect to /matches on
success, HTTP 400 page on missing names, or an unhandled exception. -/
inductive FormResult where
  | redirect : FormResult
  | badRequest (e : String) : FormResult
  | serverError (e : String) : FormResult
deriving DecidableEq, Repr

/-- POST /matches/new (src/app.py `page_new_match`): trim names, reject empty
names with 400; a winner value other than "p1"/"p2" (including absent) is
silently coerced to "p1"; optional fields coerce `""` to `None`; the new row
is appended and the route redirects. -/
def page_new_match (f : NewMatchForm) (t : Nat) (s : List MatchRow) :
    FormResult × List MatchRow :=
  let p1 := pyStrip (orEmpty f.player1_name)
  let p2 := pyStrip (orEmpty f.player2_name)
  if p1 = "" ∨ p2 = "" then
    (.badRequest "Faltan nombres.", s)
  else
    let w := match f.winner with
      | some "p1" => "p1"
      | some "p2" => "p2"
      | _ => "p1"
    match getFormScore f.score_p1, getFormScore f.score_p2 with
    | .ok a, .ok b =>
      let m : MatchRow :=
        { id := s.length + 1, created_at := t,
          player1_name := p1, player2_name := p2, winner := w,
          score_p1 := a, score_p2 := b,
          stage := orNone f.stage, character_p1 := orNone f.character_p1,
          character_p2 := orNone f.character_p2, mode := orNone f.mode }
      (.redirect, s ++ [m])
    | .error e, _ => (.serverError e, s)
    | _, .error e => (.serverError e, s)

/-- Sample JSON body used in sanity checks below. -/
def sampleBody : PostMatchBody :=
  { player1_name := some " ana ", player2_name := some "bob", winner := some "p1" }

example : ((post_match sampleBody 7 []).2.map MatchRow.player1_name) = ["ana"] := by decide

/-- Sample form body with an invalid winner value. -/
def sampleForm : NewMatchForm :=
  { player1_name := some "A", player2_name := some "B", winner := some "p3" }

example : (page_new_match sampleForm 0 []).1 = .redirect := by decide

example : getScore (some (.jstr "abc")) = .error "invalid literal for int()" := by rfl
example : getScore (some (.jstr " -12 ")) = .ok (-12) := by rfl

/-! ## Aggregation engine

The leaderboard and player-stats SQL of src/app.py build a CTE `combined`
with one observation per match per player, then group by name. -/

/-- Per-match observation for player 1: `(player1_name, winner = 'p1')`. -/
def obs1 (m : MatchRow) : String × Bool := (m.player1_name, m.winner == "p1")

/-- Per-match observation for player 2: `(player2_name, winner = 'p2')`. -/
def obs2 (m : MatchRow) : String × Bool := (m.player2_name, m.winner == "p2")

/-- The `combined` CTE: UNION ALL of both per-match observations. -/
def combined (ms : List MatchRow) : List (String × Bool) :=
  ms.map obs1 ++ ms.map obs2

/-- SUM(won) for a grouped player name. -/
def wins_of (ms : List MatchRow) (n : String) : Nat :=
  ((combined ms).filter (fun p => p.1 == n && p.2)).length

/-- COUNT(*) for a grouped player name. -/
def games_of (ms : List MatchRow) (n : String) : Nat :=
  ((combined ms).filter (fun p => p.1 == n)).length

/-- Names of the GROUP BY groups, in first-appearance order. -/
def playerNames (ms : List MatchRow) : List String :=
  ((combined ms).map Prod.fst).dedup

/-- Row of the `agg` CTE: per-player aggregate. -/
structure AggRow where
  name : String
  wins : Nat
  total_games : Nat
  losses : Nat
deriving DecidableEq, Repr

/-- The `agg` CTE: one aggregate row per grouped name. -/
def aggRows (ms : List MatchRow) : List AggRow :=
  (playerNames ms).map (fun n =>
    { name := n, wins := wins_of ms n, total_games := games_of ms n,
      losses := games_of ms n - wins_of ms n })

/-- SQL `ORDER BY wins DESC, total_games DESC` as a total preorder on rows. -/
def lbOrder (a b : AggRow) : Prop :=
  b.wins < a.wins ∨ (a.wins = b.wins ∧ b.total_games ≤ a.total_games)

instance : DecidableRel lbOrder := fun a b => by
  unfold lbOrder; infer_instance

instance : IsTotal AggRow lbOrder := by
  constructor
  intro a b
  unfold lbOrder
  omega

instance : IsTrans AggRow lbOrder := by
  constructor
  intro a b c hab hbc
  unfold lbOrder at *
  omega

/-- Effective minimum-games bound: `max(0, min_games)`. -/
def effMinGames (mg : Int) : Int := max 0 mg

/-- Effective row bound: `min(limit, 100)`. -/
def effLimit (limit : Int) : Int := min limit 100

/-- Rows passing `WHERE total_games >= :min_games`. -/
def qualifying (ms : List MatchRow) (mg : Int) : List AggRow :=
  (aggRows ms).filter (fun r => decide (effMinGames mg ≤ (r.total_games : Int)))

/-- SQL `LIMIT :n` under the default SQLite backend: a negative bound
returns all rows, a non-negative bound keeps the first `n`. -/
def sqlLimit (n : Int) (l : List AggRow) : List AggRow :=
  if n < 0 then l else l.take n.toNat

/-- Leaderboard entry serialized by `get_leaderboard` (win_rate kept exact;
the code rounds it to two decimals for display). -/
structure LBEntry where
  rank : Nat
  name : String
  wins : Nat
  losses : Nat
  total_games : Nat
  win_rate : ℚ
deriving DecidableEq, Repr

/-- Serialization of one aggregate row at 1-based position `rank`. -/
def mkEntry (rank : Nat) (r : AggRow) : LBEntry :=
  { rank := rank, name := r.name, wins := r.wins, losses := r.losses,
    total_games := r.total_games,
    win_rate := if r.total_games = 0 then 0 else (r.wins : ℚ) / (r.total_games : ℚ) }

/-- The `enumerate(rows)` loop of `get_leaderboard`: entries ranked from
`i + 1` onward. -/
def withRanks (i : Nat) : List AggRow → List LBEntry
  | [] => []
  | r :: rs => mkEntry (i + 1) r :: withRanks (i + 1) rs

/-- GET /api/leaderboard (src/app.py `get_leaderboard`): clamp the arguments,
filter, sort by wins then total games (descending), truncate, rank. -/
def get_leaderboard (ms : List MatchRow) (limit mg : Int) : List LBEntry :=
  withRanks 0 (sqlLimit (effLimit limit) (List.insertionSort lbOrder (qualifying ms mg)))

/-- Aggregate row recovered from a serialized leaderboard entry. -/
def entryStat (e : LBEntry) : AggRow :=
  { name := e.name, wins := e.wins, total_games := e.total_games, losses := e.losses }

/-- Player-stats response body of `get_player_stats`. -/
structure PlayerStatsResp where
  name : String
  wins : Nat
  losses : Nat
  total_games : Nat
  win_rate : ℚ
deriving DecidableEq, Repr

/-- GET /api/players/name/stats (src/app.py `get_player_stats`): trim the
name, reject an empty one with 400, and aggregate the `combined` rows whose
name matches exactly; zero games yields the zeroed response. -/
def get_player_stats (nameArg : String) (ms : List MatchRow) :
    Except String PlayerStatsResp :=
  let name := pyStrip nameArg
  if name = "" then .error "name required"
  else
    let total := games_of ms name
    if total = 0 then
      .ok { name := name, wins := 0, losses := 0, total_games := 0, win_rate := 0 }
    else
      let w := wins_of ms name
      .ok { name := name, wins := w, losses := total - w, total_games := total,
            win_rate := (w : ℚ) / (total : ℚ) }

/-! ## Match listing -/

/-- Descending order on creation time, as written in
`order_by(Match.created_at.desc())` — note no tie-break column. -/
def createdDescOrder (a b : MatchRow) : Prop :=
  b.created_at ≤ a.created_at

instance : DecidableRel createdDescOrder := fun a b => by
  unfold createdDescOrder; infer_instance

instance : IsTotal MatchRow createdDescOrder := by
  constructor
  intro a b
  unfold createdDescOrder
  omega

instance : IsTrans MatchRow createdDescOrder := by
  constructor
  intro a b c hab hbc
  unfold createdDescOrder at *
  omega

/-- Result of the paginated listing: the JSON payload, or the HTTP 404 that
`paginate` (with its default `error_out=True`) raises for an out-of-range
page. -/
inductive ListResult where
  | ok (items : List MatchRow) (total : Nat) (page : Nat) (per_page : Nat) : ListResult
  | notFound : ListResult
deriving DecidableEq, Repr

/-- GET /api/matches (src/app.py `list_matches`): clamp `page` to at least 1
and `per_page` into [1, 50], order rows by `created_at` descending (stable
over table order — no tie-break in the query), window them, and 404 when a
page other than 1 turns out empty. -/
def list_matches (pageArg per_pageArg : Int) (ms : List MatchRow) : ListResult :=
  let page := max 1 pageArg
  let per_page := min 50 (max 1 per_pageArg)
  let ordered := List.insertionSort createdDescOrder ms
  let items := (ordered.drop ((page.toNat - 1) * per_page.toNat)).take per_page.toNat
  if items = [] ∧ page ≠ 1 then .notFound
  else .ok items ms.length page.toNat per_page.toNat

/-- GET /api/stats/summary (src/app.py `stats_summary`): COUNT of rows. -/
def stats_summary (ms : List MatchRow) : Nat := ms.length

/-! ## Operations on the store

The application exposes exactly two store-writing requests (both creation
paths) and four read-only requests; no route updates or deletes a row. -/

/-- One HTTP request of the application, as it affects the store. -/
inductive Op where
  | postMatch (body : PostMatchBody) (t : Nat) : Op
  | formNewMatch (f : NewMatchForm) (t : Nat) : Op
  | leaderboardQuery (limit mg : Int) : Op
  | playerStatsQuery (name : String) : Op
  | listQuery (page per_page : Int) : Op
  | summaryQuery : Op

/-- Store after serving one request. Read-only routes leave it unchanged. -/
def applyOp (op : Op) (s : List MatchRow) : List MatchRow :=
  match op with
  | .postMatch body t => (post_match body t s).2
  | .formNewMatch f t => (page_new_match f t s).2
  | .leaderboardQuery _ _ => s
  | .playerStatsQuery _ => s
  | .listQuery _ _ => s
  | .summaryQuery => s

/-- Store reached from the empty database after a sequence of requests. -/
def runOps (ops : List Op) : List MatchRow :=
  ops.foldl (fun s op => applyOp op s) []

/-! ## Concrete stores used in witnesses and counterexamples -/

/-- Concrete row builder for witnesses (all optional fields absent). -/
def mrow (i t : Nat) (a b w : String) : MatchRow :=
  { id := i, created_at := t, player1_name := a, player2_name := b, winner := w,
    score_p1 := 0, score_p2 := 0, stage := none, character_p1 := none,
    character_p2 := none, mode := none }

/-- Two matches between A and B, one win each. -/
def msAB : List MatchRow := [mrow 1 1 "A" "B" "p1", mrow 2 2 "A" "B" "p2"]

/-- Two matches sharing a creation timestamp (distinct ids 1 and 2). -/
def msTie : List MatchRow := [mrow 1 5 "A" "B" "p1", mrow 2 5 "C" "D" "p1"]

/-! ## Counting lemmas for the win/loss balance -/

/-- Splitting a filtered count along a second Boolean test. -/
theorem filter_and_partition {γ : Type} (A q : γ → Bool) (W : List γ) :
    (W.filter (fun w => A w && q w)).length + (W.filter (fun w => !A w && q w)).length
      = (W.filter q).length := by
  induction W with
  | nil => simp
  | cons w W ih =>
    by_cases hA : A w = true <;> by_cases hq : q w = true <;>
      simp [List.filter_cons, hA, hq] <;> omega

/-- Summing fiber sizes over a duplicate-free list of keys that covers every
element passing the test recovers the total count of passing elements. -/
theorem sum_fiber {γ β : Type} [DecidableEq β] (k : γ → β) (q : γ → Bool) :
    ∀ (names : List β) (W : List γ), names.Nodup →
      (∀ w ∈ W, q w = true → k w ∈ names) →
      ((names.map (fun n => (W.filter (fun w => k w == n && q w)).length)).sum
        = (W.filter q).length) := by
  intro names
  induction names with
  | nil =>
    intro W _ hcov
    have hnil : W.filter q = [] := by
      apply List.filter_eq_nil_iff.mpr
      intro w hw hq
      exact absurd (hcov w hw hq) (List.not_mem_nil _)
    simp [hnil]
  | cons n rest ih =>
    intro W hnd hcov
    have hndr : rest.Nodup := hnd.of_cons
    have hnmem : n ∉ rest := by
      intro hmem
      exact (List.nodup_cons.mp hnd).1 hmem
    -- rows of other fibers survive removing the fiber of `n`
    have hfib : ∀ m ∈ rest,
        ((W.filter (fun w => !(k w == n))).filter (fun w => k w == m && q w))
          = W.filter (fun w => k w == m && q w) := by
      intro m hm
      have hmn : m ≠ n := fun he => hnmem (he ▸ hm)
      rw [List.filter_filter]
      apply List.filter_congr
      intro w _
      by_cases hkm : k w = m
      · have hkn : k w ≠ n := fun he => hmn (hkm.symm.trans he)
        simp [hkm, hkn, hmn]
      · simp [hkm]
    have hcov2 : ∀ w ∈ W.filter (fun w => !(k w == n)), q w = true → k w ∈ rest := by
      intro w hw hq
      have hmem := List.mem_of_mem_filter hw
      have hne : k w ≠ n := by
        have h2 := List.of_mem_filter hw
        simpa using h2
      rcases List.mem_cons.mp (hcov w hmem hq) with he | hr
      · exact absurd he hne
      · exact hr
    have ihr := ih (W.filter (fun w => !(k w == n))) hndr hcov2
    have hmapeq :
        (rest.map (fun m =>
          ((W.filter (fun w => !(k w == n))).filter (fun w => k w == m && q w)).length))
          = rest.map (fun m => (W.filter (fun w => k w == m && q w)).length) := by
      apply List.map_congr_left
      intro m hm
      rw [hfib m hm]
    have hrest : (rest.map (fun m => (W.filter (fun w => k w == m && q w)).length)).sum
        = ((W.filter (fun w => !(k w == n))).filter q).length := by
      rw [← hmapeq, ihr]
    have hsplit := filter_and_partition (fun w => k w == n) q W
    have hW2 : (W.filter (fun w => !(k w == n))).filter q
        = W.filter (fun w => !(k w == n) && q w) := by
      rw [List.filter_filter]
      apply List.filter_congr
      intro w _
      exact Bool.and_comm (q w) (!(k w == n))
    simp only [List.map_cons, List.sum_cons, hrest, hW2]
    omega

/-- Counting matches won by player 1 plus matches won by player 2 counts every
match once, under the winner invariant. -/
theorem countP_winner_split (ms : List MatchRow)
    (h : ∀ m ∈ ms, m.winner = "p1" ∨ m.winner = "p2") :
    ms.countP (fun m => m.winner == "p1") + ms.countP (fun m => m.winner == "p2")
      = ms.length := by
  induction ms with
  | nil => simp
  | cons m ms ih =>
    have hm := h m (List.mem_cons_self m ms)
    have hms := ih (fun x hx => h x (List.mem_cons_of_mem m hx))
    rcases hm with h1 | h2
    · simp only [List.countP_cons, List.length_cons, h1]
      simp
      omega
    · simp only [List.countP_cons, List.length_cons, h2]
      simp
      omega

/-- Under the winner invariant, exactly one of the two per-match observations
of each match is a win, so the winning observations number the matches. -/
theorem length_filter_won (ms : List MatchRow)
    (h : ∀ m ∈ ms, m.winner = "p1" ∨ m.winner = "p2") :
    ((combined ms).filter (fun w => w.2)).length = ms.length := by
  have h1 : ((ms.map obs1).filter (fun w => w.2)).length
      = ms.countP (fun m => m.winner == "p1") := by
    rw [← List.countP_eq_length_filter, List.countP_map]
    rfl
  have h2 : ((ms.map obs2).filter (fun w => w.2)).length
      = ms.countP (fun m => m.winner == "p2") := by
    rw [← List.countP_eq_length_filter, List.countP_map]
    rfl
  rw [combined, List.filter_append, List.length_append, h1, h2]
  exact countP_winner_split ms h

/-- The keys of the `combined` rows all appear among the grouped names. -/
theorem mem_playerNames_of_mem_combined {ms : List MatchRow} {w : String × Bool}
    (hw : w ∈ combined ms) : w.1 ∈ playerNames ms :=
  List.mem_dedup.mpr (List.mem_map_of_mem Prod.fst hw)

/-- Summing the per-player wins over all grouped names counts every winning
observation once. -/
theorem sum_wins_eq_filter_won (ms : List MatchRow) :
    ((playerNames ms).map (fun n => wins_of ms n)).sum
      = ((combined ms).filter (fun w => w.2)).length := by
  have h := sum_fiber Prod.fst Prod.snd (playerNames ms) (combined ms)
    (List.nodup_dedup _)
    (fun w hw _ => mem_playerNames_of_mem_combined hw)
  simpa [wins_of] using h

/-- Summing the per-player game counts over all grouped names counts every
observation once: twice the number of matches. -/
theorem sum_games_eq_two_mul (ms : List MatchRow) :
    ((playerNames ms).map (fun n => games_of ms n)).sum = 2 * ms.length := by
  have h := sum_fiber Prod.fst (fun _ => true) (playerNames ms) (combined ms)
    (List.nodup_dedup _)
    (fun w hw _ => mem_playerNames_of_mem_combined hw)
  have heq : (playerNames ms).map
      (fun n => ((combined ms).filter (fun w => Prod.fst w == n && true)).length)
        = (playerNames ms).map (fun n => games_of ms n) := by
    apply List.map_congr_left
    intro n _
    simp [games_of]
  rw [heq] at h
  rw [h]
  simp [combined]
  omega

/-- Wins never exceed games for any grouped name. -/
theorem wins_of_le_games_of (ms : List MatchRow) (n : String) :
    wins_of ms n ≤ games_of ms n := by
  unfold wins_of games_of
  have hsub : (combined ms).filter (fun p => p.1 == n && p.2)
      = ((combined ms).filter (fun p => p.1 == n)).filter (fun p => p.2) := by
    rw [List.filter_filter]
    apply List.filter_congr
    intro w _
    exact Bool.and_comm (w.1 == n) w.2
  rw [hsub]
  exact List.length_filter_le _ _

/-- Sums of pointwise-dominated maps are ordered, and a sum of pointwise
differences is the difference of sums. -/
theorem sum_map_sub_of_le {β : Type} (f g : β → Nat) :
    ∀ l : List β, (∀ b ∈ l, g b ≤ f b) →
      (l.map g).sum ≤ (l.map f).sum ∧
        (l.map (fun b => f b - g b)).sum = (l.map f).sum - (l.map g).sum := by
  intro l
  induction l with
  | nil => simp
  | cons b l ih =>
    intro h
    have hb := h b (List.mem_cons_self b l)
    have hl := ih (fun x hx => h x (List.mem_cons_of_mem b hx))
    simp only [List.map_cons, List.sum_cons]
    omega

/-- Wins column of the aggregation, summed, as a sum over grouped names. -/
theorem aggRows_map_wins (ms : List MatchRow) :
    (aggRows ms).map AggRow.wins = (playerNames ms).map (fun n => wins_of ms n) := by
  simp [aggRows, List.map_map]

/-- Losses column of the aggregation as a sum over grouped names. -/
theorem aggRows_map_losses (ms : List MatchRow) :
    (aggRows ms).map AggRow.losses
      = (playerNames ms).map (fun n => games_of ms n - wins_of ms n) := by
  simp [aggRows, List.map_map]

/-- C1: for every match history satisfying the winner invariant, the per-match
observation aggregation gives every match exactly one winning and one losing
observation, so the sum of wins over all players and the sum of losses over
all players both equal the number of stored matches. -/
theorem C1_win_loss_balance (ms : List MatchRow)
    (h : ∀ m ∈ ms, m.winner = "p1" ∨ m.winner = "p2") :
    ((aggRows ms).map AggRow.wins).sum = ms.length ∧
      ((aggRows ms).map AggRow.losses).sum = ms.length := by
  have hwins : ((aggRows ms).map AggRow.wins).sum = ms.length := by
    rw [aggRows_map_wins, sum_wins_eq_filter_won, length_filter_won ms h]
  refine ⟨hwins, ?_⟩
  rw [aggRows_map_losses]
  have hsub := sum_map_sub_of_le (fun n => games_of ms n) (fun n => wins_of ms n)
    (playerNames ms) (fun n _ => wins_of_le_games_of ms n)
  have h2 : ((playerNames ms).map (fun n => games_of ms n - wins_of ms n)).sum
      = ((playerNames ms).map (fun n => games_of ms n)).sum
        - ((playerNames ms).map (fun n => wins_of ms n)).sum := hsub.2
  have hg := sum_games_eq_two_mul ms
  have hw : ((playerNames ms).map (fun n => wins_of ms n)).sum = ms.length := by
    rw [sum_wins_eq_filter_won, length_filter_won ms h]
  omega

/-- Witness for C1 at a concrete two-match history. -/
theorem C1_win_loss_balance_witness :
    (∀ m ∈ msAB, m.winner = "p1" ∨ m.winner = "p2") ∧
      (((aggRows msAB).map AggRow.wins).sum = msAB.length ∧
        ((aggRows msAB).map AggRow.losses).sum = msAB.length) :=
  ⟨by decide, C1_win_loss_balance msAB (by decide)⟩

/-! ## Creation-path lemmas and the winner invariant -/

/-- The JSON route either leaves the store unchanged or appends one row whose
winner passed the `winner in ("p1", "p2")` validation. -/
theorem post_match_store (body : PostMatchBody) (t : Nat) (s : List MatchRow) :
    (post_match body t s).2 = s ∨
      ∃ m, (post_match body t s).2 = s ++ [m] ∧
        (m.winner = "p1" ∨ m.winner = "p2") := by
  unfold post_match
  dsimp only
  split
  · left; rfl
  · split
    · split
      · rename_i w hw
        split
        · right
          exact ⟨_, rfl, hw⟩
        · left; rfl
        · left; rfl
      · left; rfl
    · left; rfl

/-- The form route either leaves the store unchanged or appends one row whose
winner is the coerced value, always "p1" or "p2". -/
theorem page_new_match_store (f : NewMatchForm) (t : Nat) (s : List MatchRow) :
    (page_new_match f t s).2 = s ∨
      ∃ m, (page_new_match f t s).2 = s ++ [m] ∧
        (m.winner = "p1" ∨ m.winner = "p2") := by
  unfold page_new_match
  dsimp only
  split
  · left; rfl
  · have hw : (match f.winner with
        | some "p1" => "p1"
        | some "p2" => "p2"
        | _ => "p1") = "p1" ∨
      (match f.winner with
        | some "p1" => "p1"
        | some "p2" => "p2"
        | _ => "p1") = "p2" := by
      rcases f.winner with _ | w
      · left; rfl
      · split
        · left; rfl
        · right; rfl
        · left; rfl
    split
    · right
      exact ⟨_, rfl, hw⟩
    · left; rfl
    · left; rfl

/-- Serving any single request preserves the winner invariant. -/
theorem applyOp_winner_invariant (op : Op) (s : List MatchRow)
    (hs : ∀ m ∈ s, m.winner = "p1" ∨ m.winner = "p2") :
    ∀ m ∈ applyOp op s, m.winner = "p1" ∨ m.winner = "p2" := by
  cases op with
  | postMatch body t =>
    rcases post_match_store body t s with he | ⟨m, he, hwm⟩ <;>
      simp only [applyOp, he]
    · exact hs
    · intro x hx
      rcases List.mem_append.mp hx with h1 | h2
      · exact hs x h1
      · rcases List.mem_singleton.mp h2 with rfl
        exact hwm
  | formNewMatch f t =>
    rcases page_new_match_store f t s with he | ⟨m, he, hwm⟩ <;>
      simp only [applyOp, he]
    · exact hs
    · intro x hx
      rcases List.mem_append.mp hx with h1 | h2
      · exact hs x h1
      · rcases List.mem_singleton.mp h2 with rfl
        exact hwm
  | leaderboardQuery limit mg => exact hs
  | playerStatsQuery name => exact hs
  | listQuery page per_page => exact hs
  | summaryQuery => exact hs

/-- C5: every row that enters the store satisfies `winner ∈ {p1, p2}`; the
invariant is established by both creation paths and preserved by every
request (no request updates or deletes rows), hence holds in every state
reachable from the empty store. -/
theorem C5_winner_invariant (ops : List Op) :
    ∀ m ∈ runOps ops, m.winner = "p1" ∨ m.winner = "p2" := by
  suffices h : ∀ (l : List Op) (s : List MatchRow),
      (∀ m ∈ s, m.winner = "p1" ∨ m.winner = "p2") →
      ∀ m ∈ l.foldl (fun s op => applyOp op s) s, m.winner = "p1" ∨ m.winner = "p2" by
    exact h ops [] (by simp)
  intro l
  induction l with
  | nil => intro s hs; simpa using hs
  | cons op l ih =>
    intro s hs
    simp only [List.foldl_cons]
    exact ih (applyOp op s) (applyOp_winner_invariant op s hs)

/-- Concrete request sequence through both creation paths and a read. -/
def opsW : List Op :=
  [Op.postMatch sampleBody 7, Op.formNewMatch sampleForm 8, Op.listQuery 1 20]

/-- Row created by the first request of `opsW` (also by `post_match
sampleBody 7 []` on the empty store). -/
def mSample : MatchRow := mrow 1 7 "ana" "bob" "p1"

/-- Witness for C5: a concrete row reached by a concrete request sequence
satisfies the winner invariant. -/
theorem C5_winner_invariant_witness :
    mSample ∈ runOps opsW ∧ (mSample.winner = "p1" ∨ mSample.winner = "p2") :=
  ⟨by decide, C5_winner_invariant opsW mSample (by decide)⟩

/-! ## Error handling on the JSON submission route -/

/-- C6: a POST /api/matches whose player names are missing or empty after
trimming returns HTTP 400 with an error body, and the store is unchanged
(no partial write). -/
theorem C6_empty_names_rejected (body : PostMatchBody) (t : Nat) (s : List MatchRow)
    (h : pyStrip (orEmpty body.player1_name) = "" ∨
      pyStrip (orEmpty body.player2_name) = "") :
    post_match body t s
        = (.badRequest "player1_name and player2_name required", s) ∧
      (post_match body t s).1.status = 400 := by
  unfold post_match
  dsimp only
  rw [if_pos h]
  exact ⟨rfl, rfl⟩

/-- Witness for C6: a body whose first player name trims to empty. -/
theorem C6_empty_names_rejected_witness :
    post_match { player1_name := some "  ", player2_name := some "B" } 0 []
        = (.badRequest "player1_name and player2_name required", []) ∧
      (post_match { player1_name := some "  ", player2_name := some "B" } 0 []).1.status
        = 400 :=
  C6_empty_names_rejected
    { player1_name := some "  ", player2_name := some "B" } 0 [] (by decide)

/-- C7: looking up a player with no recorded games (in particular on an
empty store) succeeds with the zero-valued statistics rather than erroring. -/
theorem C7_unknown_player_zeroed (name : String) (ms : List MatchRow)
    (hne : pyStrip name ≠ "") (hnog : games_of ms (pyStrip name) = 0) :
    get_player_stats name ms
      = .ok { name := pyStrip name, wins := 0, losses := 0, total_games := 0,
              win_rate := 0 } := by
  unfold get_player_stats
  dsimp only
  rw [if_neg hne, if_pos hnog]

/-- Witness for C7: an unknown player on the empty store. -/
theorem C7_unknown_player_zeroed_witness :
    get_player_stats "UNKNOWN" []
      = .ok { name := "UNKNOWN", wins := 0, losses := 0, total_games := 0,
              win_rate := 0 } :=
  C7_unknown_player_zeroed "UNKNOWN" [] (by decide) rfl

/-- C9: scores are parsed with `int(... or 0)` — an absent or empty score
becomes 0, and if either score fails integer parsing the request errors out
before the success branch, so no row is stored. -/
theorem C9_score_parsing (body : PostMatchBody) (t : Nat) (s : List MatchRow)
    (h : (getScore body.score_p1).isOk = false ∨
      (getScore body.score_p2).isOk = false) :
    (∀ m, (post_match body t s).1 ≠ .created m) ∧ (post_match body t s).2 = s ∧
      getScore none = .ok 0 ∧ getScore (some (.jstr "")) = .ok 0 := by
  unfold post_match
  dsimp only
  split
  · exact ⟨fun m hm => by simp at hm, rfl, rfl, rfl⟩
  · split
    · split
      · split
        · rename_i a b ha hb
          rcases h with h | h
          · rw [ha] at h; simp [Except.isOk, Except.toBool] at h
          · rw [hb] at h; simp [Except.isOk, Except.toBool] at h
        · exact ⟨fun m hm => by simp at hm, rfl, rfl, rfl⟩
        · exact ⟨fun m hm => by simp at hm, rfl, rfl, rfl⟩
      · exact ⟨fun m hm => by simp at hm, rfl, rfl, rfl⟩
    · exact ⟨fun m hm => by simp at hm, rfl, rfl, rfl⟩

/-- Concrete body with a non-numeric score value. -/
def badScoreBody : PostMatchBody :=
  { player1_name := some "A", player2_name := some "B", winner := some "p1",
    score_p1 := some (.jstr "abc") }

/-- Witness for C9: a non-numeric score never reaches the success branch. -/
theorem C9_score_parsing_witness :
    (∀ m, (post_match badScoreBody 0 []).1 ≠ .created m) ∧
      (post_match badScoreBody 0 []).2 = [] ∧
      getScore none = .ok 0 ∧ getScore (some (.jstr "")) = .ok 0 :=
  C9_score_parsing badScoreBody 0 [] (by decide)

/-- C10: a listing request for a valid page lying past the last non-empty
page yields the 404 of `paginate` (default `error_out`), not an empty page. -/
theorem C10_page_past_end (pageArg per_pageArg : Int) (ms : List MatchRow)
    (hp : 2 ≤ pageArg)
    (hpast : ms.length ≤ (pageArg.toNat - 1) * (min 50 (max 1 per_pageArg)).toNat) :
    list_matches pageArg per_pageArg ms = .notFound := by
  unfold list_matches
  dsimp only
  have hpage : max 1 pageArg = pageArg := max_eq_right (by omega)
  rw [hpage]
  have hlen : (List.insertionSort createdDescOrder ms).length = ms.length :=
    (List.perm_insertionSort _ _).length_eq
  have hdrop : (List.insertionSort createdDescOrder ms).drop
      ((pageArg.toNat - 1) * (min 50 (max 1 per_pageArg)).toNat) = [] := by
    apply List.drop_eq_nil_of_le
    rw [hlen]
    exact hpast
  rw [hdrop, List.take_nil]
  have hne : pageArg ≠ 1 := by omega
  rw [if_pos ⟨rfl, hne⟩]

/-- Witness for C10: page 2 of a two-match store at twenty per page. -/
theorem C10_page_past_end_witness :
    (2 : Int) ≤ 2 ∧ msAB.length ≤ ((2 : Int).toNat - 1) * (min 50 (max 1 (20 : Int))).toNat ∧
      list_matches 2 20 msAB = .notFound :=
  ⟨by decide, by decide, C10_page_past_end 2 20 msAB (by decide) (by decide)⟩

/-! ## Name normalization at creation (C3) -/

/-- Lower-case body accepted by the JSON route. -/
def lcBody : PostMatchBody :=
  { player1_name := some "ana", player2_name := some "bob", winner := some "p1" }

/-- C3 counterexample: the JSON route accepts a lower-case name (HTTP 201)
and stores it exactly as trimmed — not upper-cased as the claim asserts. -/
theorem C3_counterexample :
    (post_match lcBody 0 []).1.status = 201 ∧
      ((post_match lcBody 0 []).2.map MatchRow.player1_name)
        ≠ [pyUpper (pyStrip (orEmpty lcBody.player1_name))] := by
  exact ⟨by decide, by decide⟩

/-- C3 (amended): both creation paths store the player names as the trimmed
input, with no case normalization; character fields are stored exactly as
given on the JSON path and with `"" or None` coercion on the form path. -/
theorem C3_stored_names_trimmed (body : PostMatchBody) (f : NewMatchForm)
    (t u : Nat) (s1 s2 r2 : List MatchRow) (m1 : MatchRow) (r1 : List MatchRow)
    (h1 : post_match body t s1 = (.created m1, r1))
    (h2 : page_new_match f u s2 = (.redirect, r2)) :
    (m1.player1_name = pyStrip (orEmpty body.player1_name) ∧
      m1.player2_name = pyStrip (orEmpty body.player2_name) ∧
      m1.character_p1 = body.character_p1 ∧
      m1.character_p2 = body.character_p2 ∧
      r1 = s1 ++ [m1]) ∧
    ∃ m2, r2 = s2 ++ [m2] ∧
      m2.player1_name = pyStrip (orEmpty f.player1_name) ∧
      m2.player2_name = pyStrip (orEmpty f.player2_name) ∧
      m2.character_p1 = orNone f.character_p1 ∧
      m2.character_p2 = orNone f.character_p2 := by
  constructor
  · unfold post_match at h1
    dsimp only at h1
    split at h1
    · simp at h1
    · split at h1
      · split at h1
        · split at h1
          · simp only [Prod.mk.injEq, PostResult.created.injEq] at h1
            obtain ⟨hm, hr⟩ := h1
            subst hm
            exact ⟨rfl, rfl, rfl, rfl, hr.symm⟩
          · simp at h1
          · simp at h1
        · simp at h1
      · simp at h1
  · unfold page_new_match at h2
    dsimp only at h2
    split at h2
    · simp at h2
    · split at h2
      · simp only [Prod.mk.injEq, true_and] at h2
        exact ⟨_, h2.symm, rfl, rfl, rfl, rfl⟩
      · simp at h2
      · simp at h2

/-- Valid form submission used in witnesses (tests the `"" or None` coercion
of the character fields). -/
def sampleFormValid : NewMatchForm :=
  { player1_name := some " Cara ", player2_name := some "dave",
    winner := some "p2", character_p1 := some "", character_p2 := some "Ken" }

/-- Row created by `page_new_match sampleFormValid 9 []`. -/
def mFormSample : MatchRow :=
  { id := 1, created_at := 9, player1_name := "Cara", player2_name := "dave",
    winner := "p2", score_p1 := 0, score_p2 := 0, stage := none,
    character_p1 := none, character_p2 := some "Ken", mode := none }

/-- Witness for the amended C3 on concrete submissions through both paths. -/
theorem C3_stored_names_trimmed_witness :
    (mSample.player1_name = pyStrip (orEmpty sampleBody.player1_name) ∧
      mSample.player2_name = pyStrip (orEmpty sampleBody.player2_name) ∧
      mSample.character_p1 = sampleBody.character_p1 ∧
      mSample.character_p2 = sampleBody.character_p2 ∧
      [mSample] = [] ++ [mSample]) ∧
    ∃ m2, [mFormSample] = [] ++ [m2] ∧
      m2.player1_name = pyStrip (orEmpty sampleFormValid.player1_name) ∧
      m2.player2_name = pyStrip (orEmpty sampleFormValid.player2_name) ∧
      m2.character_p1 = orNone sampleFormValid.character_p1 ∧
      m2.character_p2 = orNone sampleFormValid.character_p2 :=
  C3_stored_names_trimmed sampleBody sampleFormValid 7 9 [] [] [mFormSample]
    mSample [mSample] (by decide) (by decide)

/-! ## Winner validation on the two submission paths (C4) -/

/-- C4 counterexample: the HTML form path does not reject `winner="p3"` — it
redirects (success) and a record is created. -/
theorem C4_counterexample :
    (page_new_match sampleForm 0 []).1 = .redirect ∧
      (page_new_match sampleForm 0 []).2 ≠ [] := by
  exact ⟨by decide, by decide⟩

/-- C4 (amended): the JSON API path rejects a winner other than "p1"/"p2"
(including an absent one) with HTTP 400 and no write; the HTML form path
instead coerces such a winner to "p1" — it never rejects for the winner's
sake, and any row it appends carries winner "p1". -/
theorem C4_winner_validation (body : PostMatchBody) (f : NewMatchForm) (t : Nat)
    (s : List MatchRow)
    (hwb : body.winner ≠ some "p1" ∧ body.winner ≠ some "p2")
    (hwf : f.winner ≠ some "p1" ∧ f.winner ≠ some "p2") :
    ((post_match body t s).1.status = 400 ∧ (post_match body t s).2 = s) ∧
      ((page_new_match f t s).2 = s ∨
        ∃ a b, getFormScore f.score_p1 = .ok a ∧ getFormScore f.score_p2 = .ok b ∧
          page_new_match f t s = (.redirect, s ++
            [{ id := s.length + 1, created_at := t,
               player1_name := pyStrip (orEmpty f.player1_name),
               player2_name := pyStrip (orEmpty f.player2_name), winner := "p1",
               score_p1 := a, score_p2 := b, stage := orNone f.stage,
               character_p1 := orNone f.character_p1,
               character_p2 := orNone f.character_p2,
               mode := orNone f.mode }])) := by
  constructor
  · unfold post_match
    dsimp only
    split
    · exact ⟨rfl, rfl⟩
    · split
      · split
        · rename_i w heq hw
          rcases hw with rfl | rfl
          · exact absurd heq hwb.1
          · exact absurd heq hwb.2
        · exact ⟨rfl, rfl⟩
      · exact ⟨rfl, rfl⟩
  · have hcoerce : (match f.winner with
        | some "p1" => "p1"
        | some "p2" => "p2"
        | _ => "p1") = "p1" := by
      split
      · rename_i heq
        exact absurd heq hwf.1
      · rename_i heq
        exact absurd heq hwf.2
      · rfl
    unfold page_new_match
    dsimp only
    split
    · left; rfl
    · rw [hcoerce]
      split
      · rename_i a b ha hb
        right
        exact ⟨a, b, ha, hb, rfl⟩
      · left; rfl
      · left; rfl

/-- Body carrying an invalid winner for the C4 witness. -/
def badWinnerBody : PostMatchBody :=
  { player1_name := some "A", player2_name := some "B", winner := some "p3" }

/-- Witness for the amended C4 at concrete invalid-winner submissions. -/
theorem C4_winner_validation_witness :
    ((post_match badWinnerBody 0 []).1.status = 400 ∧
      (post_match badWinnerBody 0 []).2 = []) ∧
      ((page_new_match sampleForm 0 []).2 = [] ∨
        ∃ a b, getFormScore sampleForm.score_p1 = .ok a ∧
          getFormScore sampleForm.score_p2 = .ok b ∧
          page_new_match sampleForm 0 [] = (.redirect, [] ++
            [{ id := 1, created_at := 0,
               player1_name := pyStrip (orEmpty sampleForm.player1_name),
               player2_name := pyStrip (orEmpty sampleForm.player2_name),
               winner := "p1",
               score_p1 := a, score_p2 := b, stage := orNone sampleForm.stage,
               character_p1 := orNone sampleForm.character_p1,
               character_p2 := orNone sampleForm.character_p2,
               mode := orNone sampleForm.mode }])) :=
  C4_winner_validation badWinnerBody
    sampleForm 0 [] ⟨by decide, by decide⟩ ⟨by decide, by decide⟩

/-! ## Listing order (C8) -/

/-- Items of a listing result (empty for the 404 outcome). -/
def ListResult.itemsOf : ListResult → List MatchRow
  | .ok items _ _ _ => items
  | .notFound => []

/-- Ordering asserted by the claim: `created_at` descending with ties broken
by `id` descending. -/
def claimedListOrder (a b : MatchRow) : Prop :=
  b.created_at < a.created_at ∨ (a.created_at = b.created_at ∧ b.id < a.id)

instance : DecidableRel claimedListOrder := fun a b => by
  unfold claimedListOrder; infer_instance

/-- C8 counterexample: two rows share a `created_at`; the listing returns
them in table order (id ascending), which violates the claimed id-descending
tie-break. -/
theorem C8_counterexample :
    (list_matches 1 20 msTie).itemsOf
        = [mrow 1 5 "A" "B" "p1", mrow 2 5 "C" "D" "p1"] ∧
      ¬ claimedListOrder (mrow 1 5 "A" "B" "p1") (mrow 2 5 "C" "D" "p1") := by
  exact ⟨by decide, by decide⟩

/-- C8 (amended): the listing is ordered by `created_at` descending only; the
query has no tie-break column, so rows sharing a timestamp appear in table
order, not id-descending. The reported total is the full match count. -/
theorem C8_listing_order (pageArg per_pageArg : Int) (ms items : List MatchRow)
    (total p q : Nat)
    (h : list_matches pageArg per_pageArg ms = .ok items total p q) :
    items.Pairwise (fun a b => b.created_at ≤ a.created_at) ∧ total = ms.length := by
  unfold list_matches at h
  dsimp only at h
  split at h
  · simp at h
  · simp only [ListResult.ok.injEq] at h
    obtain ⟨hitems, htotal, _, _⟩ := h
    subst hitems
    refine ⟨?_, htotal.symm⟩
    have hsorted : (List.insertionSort createdDescOrder ms).Pairwise createdDescOrder :=
      List.sorted_insertionSort createdDescOrder ms
    have hsub : List.Sublist
        (((List.insertionSort createdDescOrder ms).drop
          (((max 1 pageArg).toNat - 1) * (min 50 (max 1 per_pageArg)).toNat)).take
            (min 50 (max 1 per_pageArg)).toNat)
        (List.insertionSort createdDescOrder ms) :=
      (List.take_sublist _ _).trans (List.drop_sublist _ _)
    exact hsorted.sublist hsub

/-- Witness for the amended C8 on the two-match store. -/
theorem C8_listing_order_witness :
    ([mrow 2 2 "A" "B" "p2", mrow 1 1 "A" "B" "p1"].Pairwise
        (fun a b : MatchRow => b.created_at ≤ a.created_at)) ∧ 2 = msAB.length :=
  C8_listing_order 1 20 msAB [mrow 2 2 "A" "B" "p2", mrow 1 1 "A" "B" "p1"]
    2 1 20 (by decide)

/-! ## Leaderboard contract (C2) -/

/-- Serialization recovers the aggregate row (structure eta). -/
theorem entryStat_mkEntry (k : Nat) (r : AggRow) : entryStat (mkEntry k r) = r := rfl

/-- Ranked serialization of a list of rows maps back to exactly those rows. -/
theorem withRanks_map_entryStat :
    ∀ (i : Nat) (rs : List AggRow), (withRanks i rs).map entryStat = rs
  | _, [] => rfl
  | i, r :: rs => by
    simp [withRanks, entryStat_mkEntry, withRanks_map_entryStat (i + 1) rs]

/-- Ranked serialization preserves length. -/
theorem length_withRanks :
    ∀ (i : Nat) (rs : List AggRow), (withRanks i rs).length = rs.length
  | _, [] => rfl
  | i, r :: rs => by simp [withRanks, length_withRanks (i + 1) rs]

/-- Ranks produced by the enumeration are consecutive from `i + 1`. -/
theorem withRanks_map_rank :
    ∀ (i : Nat) (rs : List AggRow),
      (withRanks i rs).map LBEntry.rank = List.range' (i + 1) rs.length
  | _, [] => rfl
  | i, r :: rs => by
    simp only [withRanks, List.map_cons, List.length_cons, List.range'_succ]
    rw [withRanks_map_rank (i + 1) rs]
    rfl

/-- Members of the ranked serialization are serializations of members. -/
theorem mem_withRanks {e : LBEntry} :
    ∀ (i : Nat) (rs : List AggRow), e ∈ withRanks i rs →
      ∃ r, r ∈ rs ∧ ∃ k, e = mkEntry k r := by
  intro i rs
  induction rs generalizing i with
  | nil => intro h; simp [withRanks] at h
  | cons r rs ih =>
    intro h
    rcases List.mem_cons.mp h with he | hm
    · exact ⟨r, List.mem_cons_self r rs, i + 1, he⟩
    · obtain ⟨r2, hr2, k, he⟩ := ih (i + 1) hm
      exact ⟨r2, List.mem_cons_of_mem r hr2, k, he⟩

/-- Pairwise relations transfer through the ranked serialization. -/
theorem pairwise_withRanks (R : AggRow → AggRow → Prop) (S : LBEntry → LBEntry → Prop)
    (hRS : ∀ a b i j, R a b → S (mkEntry i a) (mkEntry j b)) :
    ∀ (i : Nat) (rs : List AggRow), rs.Pairwise R → (withRanks i rs).Pairwise S := by
  intro i rs
  induction rs generalizing i with
  | nil => intro _; exact List.Pairwise.nil
  | cons r rs ih =>
    intro hp
    rcases List.pairwise_cons.mp hp with ⟨hhead, htail⟩
    refine List.pairwise_cons.mpr ⟨?_, ih (i + 1) htail⟩
    intro e he
    obtain ⟨r2, hr2, k, rfl⟩ := mem_withRanks (i + 1) rs he
    exact hRS r r2 (i + 1) k (hhead r2 hr2)

/-- Contract of the leaderboard route for a non-negative limit: every entry
passes the clamped min-games filter; entries are ordered non-increasing by
wins with ties non-increasing by total games; the output length is
`min(limit, 100)` capped by the number of qualifying rows, with ranks the
consecutive 1-based output positions; and the output is a top-`k` selection
of the qualifying rows: together with the omitted rows it is a permutation
of the qualifying rows, and every returned row sorts at least as well
(wins, then total games) as every omitted row — so truncation keeps the
best-ranked players (all of them, as a permutation, when they fit). -/
def leaderboardContract (ms : List MatchRow) (limit mg : Int) : Prop :=
  (∀ e ∈ get_leaderboard ms limit mg, effMinGames mg ≤ (e.total_games : Int)) ∧
  (get_leaderboard ms limit mg).Pairwise
    (fun a b => b.wins < a.wins ∨ (a.wins = b.wins ∧ b.total_games ≤ a.total_games)) ∧
  (get_leaderboard ms limit mg).length
      = min (effLimit limit).toNat (qualifying ms mg).length ∧
  (get_leaderboard ms limit mg).map LBEntry.rank
      = List.range' 1 (get_leaderboard ms limit mg).length ∧
  (∃ rest,
    List.Perm ((get_leaderboard ms limit mg).map entryStat ++ rest) (qualifying ms mg) ∧
    ∀ e ∈ get_leaderboard ms limit mg, ∀ r ∈ rest, lbOrder (entryStat e) r) ∧
  List.Subperm ((get_leaderboard ms limit mg).map entryStat) (qualifying ms mg) ∧
  ((qualifying ms mg).length ≤ (effLimit limit).toNat →
    List.Perm ((get_leaderboard ms limit mg).map entryStat) (qualifying ms mg))

/-- C2 (amended): the leaderboard contract holds for every store state,
minimum-games bound and non-negative limit. (For a negative limit the code
does not truncate at all — see the counterexample.) -/
theorem C2_leaderboard (ms : List MatchRow) (limit mg : Int) (hl : 0 ≤ limit) :
    leaderboardContract ms limit mg := by
  have hnneg : 0 ≤ effLimit limit := le_min hl (by norm_num)
  have hslim : sqlLimit (effLimit limit) (List.insertionSort lbOrder (qualifying ms mg))
      = (List.insertionSort lbOrder (qualifying ms mg)).take (effLimit limit).toNat := by
    unfold sqlLimit
    rw [if_neg (by omega)]
  have hlb : get_leaderboard ms limit mg
      = withRanks 0 ((List.insertionSort lbOrder (qualifying ms mg)).take
          (effLimit limit).toNat) := by
    rw [get_leaderboard, hslim]
  have hperm : List.Perm (List.insertionSort lbOrder (qualifying ms mg))
      (qualifying ms mg) := List.perm_insertionSort _ _
  have hsorted : (List.insertionSort lbOrder (qualifying ms mg)).Pairwise lbOrder :=
    List.sorted_insertionSort _ _
  have hsub : List.Sublist
      ((List.insertionSort lbOrder (qualifying ms mg)).take (effLimit limit).toNat)
      (List.insertionSort lbOrder (qualifying ms mg)) := List.take_sublist _ _
  have hmap : (withRanks 0 ((List.insertionSort lbOrder (qualifying ms mg)).take
        (effLimit limit).toNat)).map entryStat
      = (List.insertionSort lbOrder (qualifying ms mg)).take (effLimit limit).toNat :=
    withRanks_map_entryStat 0 _
  refine ⟨?_, ?_, ?_, ?_, ?_, ?_, ?_⟩
  · intro e he
    rw [hlb] at he
    obtain ⟨r, hr, k, rfl⟩ := mem_withRanks 0 _ he
    have hrq : r ∈ (aggRows ms).filter
        (fun r => decide (effMinGames mg ≤ (r.total_games : Int))) :=
      hperm.mem_iff.mp (hsub.subset hr)
    have hle : effMinGames mg ≤ (r.total_games : Int) :=
      of_decide_eq_true (List.mem_filter.mp hrq).2
    exact hle
  · rw [hlb]
    exact pairwise_withRanks lbOrder _ (fun a b i j hab => hab) 0 _
      (hsorted.sublist hsub)
  · rw [hlb, length_withRanks, List.length_take, hperm.length_eq]
  · rw [hlb, withRanks_map_rank, length_withRanks]
  · refine ⟨(List.insertionSort lbOrder (qualifying ms mg)).drop
      (effLimit limit).toNat, ?_, ?_⟩
    · rw [hlb, hmap, List.take_append_drop]
      exact hperm
    · have hdom : ∀ a ∈ (List.insertionSort lbOrder (qualifying ms mg)).take
          (effLimit limit).toNat,
        ∀ b ∈ (List.insertionSort lbOrder (qualifying ms mg)).drop
          (effLimit limit).toNat, lbOrder a b := by
        have hsp : ((List.insertionSort lbOrder (qualifying ms mg)).take
              (effLimit limit).toNat ++
            (List.insertionSort lbOrder (qualifying ms mg)).drop
              (effLimit limit).toNat).Pairwise lbOrder := by
          rw [List.take_append_drop]
          exact hsorted
        exact (List.pairwise_append.mp hsp).2.2
      intro e he r hr
      rw [hlb] at he
      obtain ⟨r2, hr2, k, rfl⟩ := mem_withRanks 0 _ he
      exact hdom r2 hr2 r hr
  · rw [hlb, hmap]
    exact hsub.subperm.trans hperm.subperm
  · intro hlen
    rw [hlb, hmap]
    have hall : (List.insertionSort lbOrder (qualifying ms mg)).length
        ≤ (effLimit limit).toNat := by
      rw [hperm.length_eq]; exact hlen
    rw [List.take_of_length_le hall]
    exact hperm

/-- Four matches giving wins {A: 3, B: 1} (each player has 4 games). -/
def msTop : List MatchRow :=
  [mrow 1 1 "A" "B" "p1", mrow 2 2 "A" "B" "p1", mrow 3 3 "A" "B" "p1",
   mrow 4 4 "A" "B" "p2"]

example : (get_leaderboard msTop 1 1).map LBEntry.name = ["A"] := by decide
example : (get_leaderboard msTop 1 1).map LBEntry.wins = [3] := by decide
example : (get_leaderboard msTop 1 1).map LBEntry.rank = [1] := by decide

/-- Witness for the amended C2 with truncation active: `limit = 1` over the
two qualifying players of `msTop` — the contract forces the single returned
row to be the best-ranked player. -/
theorem C2_leaderboard_witness : leaderboardContract msTop 1 1 :=
  C2_leaderboard msTop 1 1 (by decide)

/-- C2 counterexample: the code clamps `limit` only from above, so a negative
limit (legal in the query string) disables truncation under the SQLite
backend — the output is not truncated to `min(limit, 100)` as claimed. -/
theorem C2_counterexample :
    ¬ (((get_leaderboard msAB (-1) 1).length : Int) ≤ effLimit (-1)) := by
  decide

end MaxxaVelada
